import Mathlib

/-!
Shallow embedding of the CenDash deployment dashboard client
(`src/src/lib.rs`, a yew 0.x wasm component).

The embedding covers the session data record `CenDashData`, the message enum
`Msg`, and the `update` handler of the `Model` component, together with the
persistence helpers `store_state` / `restore_state`.

External collaborators are modelled explicitly:
* the `regex` crate is a parameter `RegexEngine`: compiling a pattern either
  fails (invalid pattern — in the source this is hit through
  `Regex::new(..).unwrap()`, a panic) or yields a boolean matcher;
* browser local storage is a single slot `StorageSlot` (absent, holding a
  well-formed serialized `CenDashData`, or holding undeserializable bytes);
* the browser console is a list of logged lines;
* timer / fetch task handles carry no observable data beyond their presence,
  so the `job` slot stores only which kind of job is installed and the
  one-shot autoload handle `job_onload` is a flag.

A handler that can panic (the regex unwrap in `Msg::InventoryLoaded`) is
embedded as an `Option`-returning step: `none` is the panic.
-/

namespace CenDash

/-- The serializable session record, mirroring `struct CenDashData`. -/
structure CenDashData where
  gitref : String
  filter_content : String
  messages : List String
  hosts_all : List String
  hosts_picked : List String
  inventory : List String
  logs : List String
deriving DecidableEq, Repr

/-- `CenDashData::default()`: every field empty. -/
def CenDashData.default : CenDashData :=
  { gitref := "", filter_content := "", messages := [], hosts_all := [],
    hosts_picked := [], inventory := [], logs := [] }

/-- The kinds of task handle the single `job` slot can hold: the inventory
fetch handle installed by `Msg::InventoryLoad`, or the repeating deploy
interval installed by `Msg::Deploy`. -/
inductive JobKind where
  | fetchJob
  | deployTick
deriving DecidableEq, Repr

/-- Browser local storage under the fixed key `cendash-data-store`:
absent, undeserializable (`Json(Err(_))` on restore), or a stored record. -/
inductive StorageSlot where
  | absent
  | corrupt
  | stored (d : CenDashData)
deriving DecidableEq, Repr

/-- The observable state of the `Model` component: the job slots, the console
output, the local-storage slot and the serializable `data`. -/
structure Model where
  job : Option JobKind
  job_onload : Bool
  console : List String
  slot : StorageSlot
  data : CenDashData
deriving DecidableEq, Repr

/-- Model of the external `regex` crate: `Regex::new` either fails (invalid
pattern) or yields a matcher `String → Bool` (`is_match`). -/
structure RegexEngine where
  compile : String → Option (String → Bool)

/-- `yew::html::ChangeData`: the three change shapes delivered by the
multi-select host list (`Select`), a plain value input (`Value`), and a file
input (`Files`). -/
inductive ChangeData where
  | select (hosts : List String)
  | value (host : String)
  | files (files : List String)
deriving DecidableEq, Repr

/-- `enum Msg`, the closed event set of the component. -/
inductive Msg where
  | abort
  | done
  | deploySteps
  | deploy
  | setGitRef (s : String)
  | setOrUnsetHost (c : ChangeData)
  | inventoryFetching
  | inventoryLoad
  | inventoryLoaded (data : String)
  | storeData
  | restoreData
  | setContentFilter (s : String)
deriving DecidableEq, Repr

/-- `Model::store_state`: serialize `self.data` into the storage slot and log
`Stored state data`. -/
def Model.store_state (m : Model) : Model :=
  { m with slot := StorageSlot.stored m.data,
           console := m.console ++ ["Stored state data"] }

/-- `Model::restore_state`: on `Json(Ok(data))` replace `self.data` and log
`Restored app state!`; on `Json(Err(_))` (absent or undeserializable) only log
`No app state!`. -/
def Model.restore_state (m : Model) : Model :=
  match m.slot with
  | StorageSlot.stored d =>
      { m with data := d, console := m.console ++ ["Restored app state!"] }
  | _ => { m with console := m.console ++ ["No app state!"] }

/-- Rust `str::split` with a one-character separator, written structurally
over the character list (so that concrete instances evaluate in the kernel):
splitting the empty text yields one empty piece, a separator character opens
a new piece, any other character extends the first piece. -/
def splitChars (sep : Char) : List Char → List (List Char)
  | [] => [[]]
  | c :: cs =>
      match splitChars sep cs with
      | [] => [[c]]
      | r :: rs => if c = sep then [] :: r :: rs else (c :: r) :: rs

/-- `s.split(sep)` for a one-character separator, as a list of strings. -/
def splitStr (sep : Char) (s : String) : List String :=
  (splitChars sep s.data).map String.mk

/-- `s.starts_with(p)` for the one-character patterns used in the source. -/
def startsWithChar (c : Char) (s : String) : Bool :=
  match s.data with
  | [] => false
  | a :: _ => a = c

/-- `s.ends_with(p)` for the one-character patterns used in the source. -/
def endsWithChar (c : Char) (s : String) : Bool :=
  match s.data.getLast? with
  | none => false
  | some a => a = c

/-- The per-line predicate of the `Msg::InventoryLoaded` filter closure.
The source compiles the regex inside the closure with
`Regex::new(&self.data.filter_content).unwrap()`, so an invalid pattern
panics (`none`); otherwise the line is kept iff it matches the pattern, is
non-empty, does not start with `[`, does not end with `]`, and differs from
a bare newline. -/
def keepLine (eng : RegexEngine) (pat : String) (line : String) : Option Bool :=
  match eng.compile pat with
  | none => none
  | some matcher =>
      some (matcher line && !line.isEmpty && !startsWithChar '[' line
              && !endsWithChar ']' line && line != "\n")

/-- `.filter(..)` over the split lines, propagating the per-line panic. -/
def filterLines (eng : RegexEngine) (pat : String) : List String → Option (List String)
  | [] => some []
  | l :: ls =>
      match keepLine eng pat l, filterLines eng pat ls with
      | some k, some rest => some (if k then l :: rest else rest)
      | _, _ => none

/-- `line.split(" ").take(1).collect::<String>()`: the prefix of the line up
to the first space character. -/
def firstSpaceToken (line : String) : String :=
  String.join ((splitStr ' ' line).take 1)

/-- The `Msg::InventoryLoaded(data)` arm: split the body on newlines, filter
per `keepLine`, map each kept line to its first space token, replace
`inventory` and reset both `hosts_all` and `hosts_picked` to that list, log
the host count, and clear both job slots. `none` is the regex-unwrap panic. -/
def stepInventoryLoaded (eng : RegexEngine) (m : Model) (data : String) : Option Model :=
  match filterLines eng m.data.filter_content (splitStr '\n' data) with
  | none => none
  | some kept =>
      let inv := kept.map firstSpaceToken
      some { m with
        data := { m.data with inventory := inv, hosts_all := inv, hosts_picked := inv },
        console := m.console ++ ["Inventory loaded with " ++ toString inv.length ++ " hosts!"],
        job := none,
        job_onload := false }

/-- The `Msg::Deploy` arm: with `gitref.len() > 3` (byte length) install the
repeating 300ms deploy interval in the job slot, clear `messages`, clear the
console and log the git ref; otherwise push `Wrong GitRef given!` onto
`messages`. Neither branch touches storage. -/
def stepDeploy (m : Model) : Model :=
  if m.data.gitref.utf8ByteSize > 3 then
    { m with
      job := some JobKind.deployTick,
      data := { m.data with messages := [] },
      console := ["GitRef: " ++ m.data.gitref] }
  else
    { m with data := { m.data with messages := m.data.messages ++ ["Wrong GitRef given!"] } }

/-- The `Msg::Abort` arm: `self.job.take()` (cancelling the task when one is
present — never a failure when the slot is empty), push `Aborted!`, warn on
the console, and store the state. -/
def stepAbort (m : Model) : Model :=
  Model.store_state
    { m with
      job := none,
      data := { m.data with messages := m.data.messages ++ ["Aborted!"] },
      console := m.console ++ ["Aborted!"] }

/-- The `Msg::Done` arm: push `Done!`, log, store the state, clear the job. -/
def stepDone (m : Model) : Model :=
  { Model.store_state
      { m with
        data := { m.data with messages := m.data.messages ++ ["Done!"] },
        console := m.console ++ ["Done!"] }
    with job := none }

/-- The `Msg::DeploySteps` arm (one deploy tick): push `DeploySteps!`, count
on the console, and store the state. The job slot is untouched. -/
def stepDeploySteps (m : Model) : Model :=
  Model.store_state
    { m with
      data := { m.data with messages := m.data.messages ++ ["DeploySteps!"] },
      console := m.console ++ ["DeploySteps GitRef: " ++ m.data.gitref] }

/-- The `Msg::SetGitRef` arm: set `gitref`, store, log, and reschedule the
one-shot inventory autoload (`autoload_inventory` returns a fresh handle). -/
def stepSetGitRef (m : Model) (g : String) : Model :=
  let m1 := Model.store_state { m with data := { m.data with gitref := g } }
  { m1 with console := m1.console ++ ["SetGitRef: " ++ g], job_onload := true }

/-- The `Msg::SetContentFilter` arm: set `filter_content`, store, log, and
reschedule the inventory autoload. -/
def stepSetContentFilter (m : Model) (f : String) : Model :=
  let m1 := Model.store_state { m with data := { m.data with filter_content := f } }
  { m1 with console := m1.console ++ ["SetContentFilter: " ++ f], job_onload := true }

/-- The `Msg::SetOrUnsetHost` arm: on `Select`, replace `hosts_picked` with
the newly selected set and store; `Value` and `Files` are explicit no-ops
that only log. -/
def stepSetOrUnsetHost (m : Model) (c : ChangeData) : Model :=
  match c with
  | ChangeData.select hosts =>
      let m1 := Model.store_state { m with data := { m.data with hosts_picked := hosts } }
      { m1 with console := m1.console ++ ["Hosts Selected: " ++ toString hosts.length] }
  | ChangeData.value host =>
      { m with console := m.console ++ ["NoOp for Selected Host: " ++ host] }
  | ChangeData.files _ =>
      { m with console := m.console ++ ["NoOp for ChangeData::Files(_)"] }

/-- The `Msg::InventoryLoad` arm: issue the fetch and install its handle in
the job slot. The response arrives later as `InventoryLoaded` or
`InventoryFetching`. -/
def stepInventoryLoad (m : Model) : Model :=
  { m with job := some JobKind.fetchJob }

/-- The `Msg::InventoryFetching` arm: log only. -/
def stepInventoryFetching (m : Model) : Model :=
  { m with console := m.console ++ ["Seeking /static/inventory…"] }

/-- `Model::update`: dispatch one message. `none` models the handler
panicking (only possible in `InventoryLoaded` via the regex unwrap). The
source always returns `ShouldRender = true`, which carries no state. -/
def update (eng : RegexEngine) (m : Model) (msg : Msg) : Option Model :=
  match msg with
  | Msg.inventoryLoad => some (stepInventoryLoad m)
  | Msg.inventoryFetching => some (stepInventoryFetching m)
  | Msg.inventoryLoaded data => stepInventoryLoaded eng m data
  | Msg.deploy => some (stepDeploy m)
  | Msg.abort => some (stepAbort m)
  | Msg.done => some (stepDone m)
  | Msg.deploySteps => some (stepDeploySteps m)
  | Msg.setGitRef g => some (stepSetGitRef m g)
  | Msg.setContentFilter f => some (stepSetContentFilter m f)
  | Msg.setOrUnsetHost c => some (stepSetOrUnsetHost m c)
  | Msg.storeData => some (Model.store_state m)
  | Msg.restoreData => some (Model.restore_state m)

/-- The render boundary's `has_job` flag: a job handle is installed. -/
def hasActiveJob (m : Model) : Bool :=
  m.job.isSome

/-- `Component::create`: empty data, no active job, the initial autoload
interval installed; the storage slot of a fresh browser profile is absent. -/
def initModel : Model :=
  { job := none, job_onload := true, console := [], slot := StorageSlot.absent,
    data := CenDashData.default }

/-- A concrete instance of the external regex engine, matching the `regex`
crate on the patterns used in the scenarios below: the empty pattern (and any
other well-formed pattern a scenario uses, all of which match every line
considered) compiles to a matcher accepting everything, while `[` is an
unclosed character class and fails to compile. -/
def toyEngine : RegexEngine where
  compile pat := if pat = "[" then none else some (fun _ => true)

/-- A session whose filter text is `[`, rejected by `Regex::new` (an
unclosed character class). -/
def mBadFilter : Model :=
  { initModel with data := { CenDashData.default with filter_content := "[" } }

/-- The state after loading the spec's example inventory text
`[group]\nweb01 extra\nweb02\n\n` into the fresh session. -/
def mInvLoaded : Model :=
  { job := none, job_onload := false,
    console := ["Inventory loaded with 2 hosts!"],
    slot := StorageSlot.absent,
    data := { gitref := "", filter_content := "", messages := [],
              hosts_all := ["web01", "web02"], hosts_picked := ["web01", "web02"],
              inventory := ["web01", "web02"], logs := [] } }

/-- A fresh session whose git ref is the two-character `ab`. -/
def mShort : Model :=
  { initModel with data := { CenDashData.default with gitref := "ab" } }

/-- A fresh session whose git ref is `release-42`. -/
def mLong : Model :=
  { initModel with data := { CenDashData.default with gitref := "release-42" } }

/-- A session with one visible message and an empty stored record in the
storage slot. -/
def mWithMsg : Model :=
  { initModel with data := { CenDashData.default with messages := ["a"] },
                   slot := StorageSlot.stored CenDashData.default }

/-- Splitting a character list at every character satisfying `p`, the
predicate analogue of `splitChars`. -/
def splitCharsPred (p : Char → Bool) : List Char → List (List Char)
  | [] => [[]]
  | c :: cs =>
      match splitCharsPred p cs with
      | [] => [[c]]
      | r :: rs => if p c then [] :: r :: rs else (c :: r) :: rs

/-- The spec's "first whitespace-delimited token" of a line, written from the
spec's words for comparison with the source's `firstSpaceToken`: the first
maximal run of non-whitespace characters. -/
def firstWhitespaceToken (line : String) : String :=
  ((((splitCharsPred (fun c => c.isWhitespace) line.data).map String.mk).filter
      (fun s => !s.isEmpty)).headD "")

/-- Every string a successful `filterLines` run keeps comes from the input
line list and satisfies the `keepLine` predicate. -/
theorem mem_of_filterLines (eng : RegexEngine) (pat : String) :
    ∀ (ls kept : List String), filterLines eng pat ls = some kept →
      ∀ l ∈ kept, l ∈ ls ∧ keepLine eng pat l = some true := by
  intro ls
  induction ls with
  | nil =>
      intro kept h l hl
      simp only [filterLines, Option.some.injEq] at h
      subst h
      simp at hl
  | cons x xs ih =>
      intro kept h l hl
      simp only [filterLines] at h
      cases hk : keepLine eng pat x with
      | none => rw [hk] at h; simp at h
      | some k =>
          rw [hk] at h
          cases hr : filterLines eng pat xs with
          | none => rw [hr] at h; simp at h
          | some rest =>
              rw [hr] at h
              simp only [Option.some.injEq] at h
              subst h
              cases k with
              | true =>
                  rcases List.mem_cons.mp hl with hl | hl
                  · subst hl
                    exact ⟨List.mem_cons_self _ _, hk⟩
                  · obtain ⟨h1, h2⟩ := ih rest hr l hl
                    exact ⟨List.mem_cons_of_mem _ h1, h2⟩
              | false =>
                  obtain ⟨h1, h2⟩ := ih rest hr l hl
                  exact ⟨List.mem_cons_of_mem _ h1, h2⟩

/-- C1: the spec demands that an invalid filter pattern be a caught, local
failure of the single load attempt, leaving prior inventory state untouched.
The source instead calls `Regex::new(&self.data.filter_content).unwrap()`
inside the per-line filter closure, so with the invalid pattern `[` the
`InventoryLoaded` handler panics (modelled as the update returning `none`)
on the response `web01\nweb02` — the session crashes instead of reporting
the error. -/
theorem c1_invalid_filter_panics :
    update toyEngine mBadFilter (Msg.inventoryLoaded "web01\nweb02") = none := rfl

/-- C5: storing the session and then restoring from the same slot yields the
session data back field-for-field, for every model state. -/
theorem c5_store_restore_roundtrip (m : Model) :
    ((m.store_state).restore_state).data = m.data := rfl

/-- C6 counterexample: in the fresh session no job is active, yet
`Msg::Abort` is not a no-op on the session state — it appends `Aborted!` to
`messages` (and persists), so the state is changed. -/
theorem c6_counterexample :
    initModel.job = none ∧ (stepAbort initModel).data ≠ initModel.data := by
  decide

/-- C6 amended: aborting with no active job raises no failure and leaves
every session field except `messages` unchanged; it still appends exactly one
`Aborted!` entry to `messages` and writes the state to storage, and the job
slot stays empty. -/
theorem c6_abort_without_job (m : Model) (h : m.job = none) :
    (stepAbort m).job = none
  ∧ (stepAbort m).data.gitref = m.data.gitref
  ∧ (stepAbort m).data.filter_content = m.data.filter_content
  ∧ (stepAbort m).data.hosts_all = m.data.hosts_all
  ∧ (stepAbort m).data.hosts_picked = m.data.hosts_picked
  ∧ (stepAbort m).data.inventory = m.data.inventory
  ∧ (stepAbort m).data.logs = m.data.logs
  ∧ (stepAbort m).data.messages = m.data.messages ++ ["Aborted!"]
  ∧ (stepAbort m).slot = StorageSlot.stored (stepAbort m).data :=
  ⟨rfl, rfl, rfl, rfl, rfl, rfl, rfl, rfl, rfl⟩

/-- C6 amended, witness at the fresh session. -/
theorem c6_abort_without_job_witness :
    (stepAbort initModel).job = none
  ∧ (stepAbort initModel).data.gitref = initModel.data.gitref
  ∧ (stepAbort initModel).data.filter_content = initModel.data.filter_content
  ∧ (stepAbort initModel).data.hosts_all = initModel.data.hosts_all
  ∧ (stepAbort initModel).data.hosts_picked = initModel.data.hosts_picked
  ∧ (stepAbort initModel).data.inventory = initModel.data.inventory
  ∧ (stepAbort initModel).data.logs = initModel.data.logs
  ∧ (stepAbort initModel).data.messages = initModel.data.messages ++ ["Aborted!"]
  ∧ (stepAbort initModel).slot = StorageSlot.stored (stepAbort initModel).data :=
  c6_abort_without_job initModel rfl

/-- C7: `Msg::Abort` twice in a row leaves `hasActiveJob == false` after each
call and appends `Aborted!` exactly once per call; the second call goes
through the same total handler (`job.take()` on an empty slot) without any
failure. -/
theorem c7_abort_idempotent (m : Model) :
    hasActiveJob (stepAbort m) = false
  ∧ hasActiveJob (stepAbort (stepAbort m)) = false
  ∧ (stepAbort m).data.messages = m.data.messages ++ ["Aborted!"]
  ∧ (stepAbort (stepAbort m)).data.messages
      = m.data.messages ++ ["Aborted!", "Aborted!"] := by
  refine ⟨rfl, rfl, rfl, ?_⟩
  simp [stepAbort, Model.store_state]

/-- C10: `Msg::Deploy` leaves the storage slot untouched in both branches,
while a `Msg::DeploySteps` tick persists exactly its own post-state — so the
state cleared by a successful deploy first reaches storage at the next tick. -/
theorem c10_deploy_no_store (m n : Model) :
    (stepDeploy m).slot = m.slot
  ∧ (stepDeploySteps n).slot = StorageSlot.stored ((stepDeploySteps n).data) := by
  constructor
  · unfold stepDeploy
    split <;> rfl
  · rfl

/-- C3: with `gitref` of byte length at most 3, `Msg::Deploy` leaves the job
slot unchanged and appends exactly the `Wrong GitRef given!` message; with
byte length above 3 it clears `messages`, replaces the console with the git
ref log line, and leaves an active job installed. -/
theorem c3_deploy_gitref_gate (m : Model) :
    (m.data.gitref.utf8ByteSize ≤ 3 →
       (stepDeploy m).job = m.job
       ∧ (stepDeploy m).data.messages = m.data.messages ++ ["Wrong GitRef given!"])
  ∧ (m.data.gitref.utf8ByteSize > 3 →
       (stepDeploy m).data.messages = []
       ∧ (stepDeploy m).console = ["GitRef: " ++ m.data.gitref]
       ∧ hasActiveJob (stepDeploy m) = true) := by
  constructor
  · intro h
    have hc : ¬ (m.data.gitref.utf8ByteSize > 3) := by omega
    simp [stepDeploy, hc]
  · intro h
    simp [stepDeploy, h, hasActiveJob]

/-- C3, witness: the short git ref `ab` only appends the warning; the long
git ref `release-42` clears messages, logs the ref and installs the job. -/
theorem c3_deploy_gitref_gate_witness :
    ((stepDeploy mShort).job = mShort.job
      ∧ (stepDeploy mShort).data.messages
          = mShort.data.messages ++ ["Wrong GitRef given!"])
  ∧ ((stepDeploy mLong).data.messages = []
      ∧ (stepDeploy mLong).console = ["GitRef: " ++ mLong.data.gitref]
      ∧ hasActiveJob (stepDeploy mLong) = true) :=
  ⟨(c3_deploy_gitref_gate mShort).1 (by decide),
   (c3_deploy_gitref_gate mLong).2 (by decide)⟩

/-- C4: after every successful `InventoryLoaded` event, `hosts_all` and
`hosts_picked` both equal `inventory` — any prior selection is discarded and
replaced by the full new filtered list. -/
theorem c4_inventory_sync (eng : RegexEngine) (m : Model) (data : String)
    (m' : Model) (h : update eng m (Msg.inventoryLoaded data) = some m') :
    m'.data.hosts_all = m'.data.inventory
  ∧ m'.data.hosts_picked = m'.data.inventory := by
  simp only [update, stepInventoryLoaded] at h
  cases hf : filterLines eng m.data.filter_content (splitStr '\n' data) with
  | none => rw [hf] at h; simp at h
  | some kept =>
      rw [hf] at h
      simp only [Option.some.injEq] at h
      subst h
      exact ⟨rfl, rfl⟩

/-- C4, witness: loading the spec's example inventory into a fresh session. -/
theorem c4_inventory_sync_witness :
    mInvLoaded.data.hosts_all = mInvLoaded.data.inventory
  ∧ mInvLoaded.data.hosts_picked = mInvLoaded.data.inventory :=
  c4_inventory_sync toyEngine initModel "[group]\nweb01 extra\nweb02\n\n"
    mInvLoaded (by decide)

/-- C8: restoring from an absent or undeserializable storage slot leaves the
session data, the job slots and the storage slot completely unchanged and
only appends one console log line. -/
theorem c8_restore_miss_keeps_state (m : Model)
    (h : m.slot = StorageSlot.absent ∨ m.slot = StorageSlot.corrupt) :
    (m.restore_state).data = m.data
  ∧ (m.restore_state).job = m.job
  ∧ (m.restore_state).job_onload = m.job_onload
  ∧ (m.restore_state).slot = m.slot
  ∧ (m.restore_state).console = m.console ++ ["No app state!"] := by
  rcases h with h | h <;> simp [Model.restore_state, h]

/-- C8, witness: a fresh session restores against an absent slot. -/
theorem c8_restore_miss_keeps_state_witness :
    (initModel.restore_state).data = initModel.data
  ∧ (initModel.restore_state).job = initModel.job
  ∧ (initModel.restore_state).job_onload = initModel.job_onload
  ∧ (initModel.restore_state).slot = initModel.slot
  ∧ (initModel.restore_state).console = initModel.console ++ ["No app state!"] :=
  c8_restore_miss_keeps_state initModel (Or.inl rfl)

/-- C2 counterexample: the inventory line `a\tb` (a tab, no space) passes the
filter and is retained verbatim, but its first whitespace-delimited token is
`a` — the retained entry is the prefix up to the first space character, not
the first whitespace-delimited token. -/
theorem c2_counterexample :
    (update toyEngine initModel (Msg.inventoryLoaded "a\tb")).map
        (fun n => n.data.inventory) = some ["a\tb"]
  ∧ firstWhitespaceToken "a\tb" = "a"
  ∧ ("a\tb" : String) ≠ "a" := by
  decide

/-- C2 amended: every entry of the parsed inventory comes from a line of the
response that does not start with `[`, does not end with `]`, is not empty,
and the entry equals the prefix of that line up to the first space character
(space-delimited, not general whitespace). -/
theorem c2_parse_shape (eng : RegexEngine) (m : Model) (data : String)
    (m' : Model) (h : update eng m (Msg.inventoryLoaded data) = some m') :
    ∀ e ∈ m'.data.inventory, ∃ line, line ∈ splitStr '\n' data
      ∧ startsWithChar '[' line = false
      ∧ endsWithChar ']' line = false
      ∧ line.isEmpty = false
      ∧ e = firstSpaceToken line := by
  simp only [update, stepInventoryLoaded] at h
  cases hf : filterLines eng m.data.filter_content (splitStr '\n' data) with
  | none => rw [hf] at h; simp at h
  | some kept =>
      rw [hf] at h
      simp only [Option.some.injEq] at h
      subst h
      intro e he
      have he' : e ∈ kept.map firstSpaceToken := he
      rcases List.mem_map.mp he' with ⟨l, hl, rfl⟩
      obtain ⟨hmem, hkeep⟩ := mem_of_filterLines eng m.data.filter_content _ _ hf l hl
      have hprops : startsWithChar '[' l = false
          ∧ endsWithChar ']' l = false ∧ l.isEmpty = false := by
        unfold keepLine at hkeep
        cases hc : eng.compile m.data.filter_content with
        | none => rw [hc] at hkeep; simp at hkeep
        | some matcher =>
            rw [hc] at hkeep
            simp only [Option.some.injEq, Bool.and_eq_true, Bool.not_eq_true'] at hkeep
            obtain ⟨⟨⟨⟨hm, hne⟩, hsw⟩, hew⟩, hnl⟩ := hkeep
            exact ⟨hsw, hew, hne⟩
      exact ⟨l, hmem, hprops.1, hprops.2.1, hprops.2.2, rfl⟩

/-- C2 amended, witness: the entry `web01` of the loaded example inventory
comes from the line `web01 extra`. -/
theorem c2_parse_shape_witness :
    ∃ line, line ∈ splitStr '\n' "[group]\nweb01 extra\nweb02\n\n"
      ∧ startsWithChar '[' line = false
      ∧ endsWithChar ']' line = false
      ∧ line.isEmpty = false
      ∧ "web01" = firstSpaceToken line :=
  c2_parse_shape toyEngine initModel "[group]\nweb01 extra\nweb02\n\n"
    mInvLoaded (by decide) "web01" (by decide)

/-- C9 counterexample: `Msg::RestoreData` is not `Msg::Deploy`, yet it
replaces the one-element message list by the empty stored copy — the prior
entry `a` is removed, so not every non-deploy event merely appends. -/
theorem c9_counterexample :
    update toyEngine mWithMsg Msg.restoreData = some (Model.restore_state mWithMsg)
  ∧ (Model.restore_state mWithMsg).data.messages = []
  ∧ ¬ (mWithMsg.data.messages <+: (Model.restore_state mWithMsg).data.messages) := by
  refine ⟨rfl, rfl, ?_⟩
  intro hpre
  rcases hpre with ⟨t, ht⟩
  simp [mWithMsg, Model.restore_state, initModel, CenDashData.default] at ht

/-- C9 amended: across all events, a successful `Msg::Deploy` (git ref byte
length above 3) clears `messages`, `Msg::RestoreData` with a stored record
replaces `messages` wholesale by the stored copy, and every other successful
event only extends `messages` (the prior list stays a prefix). -/
theorem c9_messages_discipline (eng : RegexEngine) (m : Model) (msg : Msg)
    (m' : Model) (h : update eng m msg = some m') :
    (msg = Msg.deploy ∧ m.data.gitref.utf8ByteSize > 3 ∧ m'.data.messages = [])
  ∨ (msg = Msg.restoreData
      ∧ ∃ d, m.slot = StorageSlot.stored d ∧ m'.data.messages = d.messages)
  ∨ m.data.messages <+: m'.data.messages := by
  cases msg with
  | deploy =>
      simp only [update, Option.some.injEq] at h
      subst h
      by_cases hg : m.data.gitref.utf8ByteSize > 3
      · exact Or.inl ⟨rfl, hg, by simp [stepDeploy, hg]⟩
      · refine Or.inr (Or.inr ?_)
        have hmsg : (stepDeploy m).data.messages
            = m.data.messages ++ ["Wrong GitRef given!"] := by
          simp [stepDeploy, hg]
        rw [hmsg]
        exact List.prefix_append _ _
  | restoreData =>
      simp only [update, Option.some.injEq] at h
      subst h
      cases hs : m.slot with
      | stored d =>
          refine Or.inr (Or.inl ⟨rfl, d, rfl, ?_⟩)
          simp [Model.restore_state, hs]
      | absent =>
          refine Or.inr (Or.inr ?_)
          have hmsg : (Model.restore_state m).data.messages = m.data.messages := by
            simp [Model.restore_state, hs]
          rw [hmsg]
      | corrupt =>
          refine Or.inr (Or.inr ?_)
          have hmsg : (Model.restore_state m).data.messages = m.data.messages := by
            simp [Model.restore_state, hs]
          rw [hmsg]
  | abort =>
      simp only [update, Option.some.injEq] at h
      subst h
      exact Or.inr (Or.inr (List.prefix_append _ _))
  | done =>
      simp only [update, Option.some.injEq] at h
      subst h
      exact Or.inr (Or.inr (List.prefix_append _ _))
  | deploySteps =>
      simp only [update, Option.some.injEq] at h
      subst h
      exact Or.inr (Or.inr (List.prefix_append _ _))
  | setGitRef g =>
      simp only [update, Option.some.injEq] at h
      subst h
      exact Or.inr (Or.inr List.prefix_rfl)
  | setContentFilter f =>
      simp only [update, Option.some.injEq] at h
      subst h
      exact Or.inr (Or.inr List.prefix_rfl)
  | setOrUnsetHost c =>
      simp only [update, Option.some.injEq] at h
      subst h
      cases c with
      | select hosts => exact Or.inr (Or.inr List.prefix_rfl)
      | value host => exact Or.inr (Or.inr List.prefix_rfl)
      | files fs => exact Or.inr (Or.inr List.prefix_rfl)
  | inventoryLoad =>
      simp only [update, Option.some.injEq] at h
      subst h
      exact Or.inr (Or.inr List.prefix_rfl)
  | inventoryFetching =>
      simp only [update, Option.some.injEq] at h
      subst h
      exact Or.inr (Or.inr List.prefix_rfl)
  | storeData =>
      simp only [update, Option.some.injEq] at h
      subst h
      exact Or.inr (Or.inr List.prefix_rfl)
  | inventoryLoaded data =>
      simp only [update, stepInventoryLoaded] at h
      cases hf : filterLines eng m.data.filter_content (splitStr '\n' data) with
      | none => rw [hf] at h; simp at h
      | some kept =>
          rw [hf] at h
          simp only [Option.some.injEq] at h
          subst h
          exact Or.inr (Or.inr List.prefix_rfl)

/-- C9 amended, witness: an abort on the fresh session extends `messages`. -/
theorem c9_messages_discipline_witness :
    (Msg.abort = Msg.deploy ∧ initModel.data.gitref.utf8ByteSize > 3
      ∧ (stepAbort initModel).data.messages = [])
  ∨ (Msg.abort = Msg.restoreData
      ∧ ∃ d, initModel.slot = StorageSlot.stored d
          ∧ (stepAbort initModel).data.messages = d.messages)
  ∨ initModel.data.messages <+: (stepAbort initModel).data.messages :=
  c9_messages_discipline toyEngine initModel Msg.abort (stepAbort initModel) rfl

end CenDash
